import Mathlib

/-!
The `linux` and `golang` lifecycle modules of gohive.

A shallow embedding of `module/linux/linux.go` and `module/golang/golang.go`.

The Go code acts on the operating system: it runs commands, touches the file
system, reads the per-app configuration store and fetches an archive over
HTTP.  The embedding passes that state explicitly:

* `World` is the mutable state (file system, OS principals, configuration
  store) together with the list of external actions performed so far;
* `Env` holds the answers of the outside world that the code cannot determine
  (exit status and output of a command, the HTTP response, I/O errors);
* a Go function becomes a function `World → result × World`; a function that
  can `panic` returns an `Outcome`.

The constants of the packages `api` and `config` are not part of the two
source files; they are the fields of `Consts` and every definition takes them
as a parameter.  The helpers `config.AppConfigGet`, `util.Includes` and
`util.Shell` are not part of them either and are modelled from the spec.

Go strings are byte sequences; they are modelled by Lean strings, on which the
substring and prefix tests used here agree with the byte-wise ones for UTF-8
text.
-/

namespace GoHive

/-! ## Go strings (package `strings`) -/

/-- Go `strings.Contains(s, substr)`: `substr` occurs in `s` as a contiguous block. -/
def Contains (s substr : String) : Bool := decide (substr.data <:+: s.data)

/-- Go `strings.HasPrefix(s, p)`. -/
def HasPrefix (s p : String) : Bool := p.data.isPrefixOf s.data

/-- Go `strings.Trim(s, cutset)`: drops the leading and the trailing characters
that belong to `cutset`. -/
def Trim (s cutset : String) : String :=
  String.mk (((s.data.dropWhile (fun c => decide (c ∈ cutset.data))).reverse.dropWhile
    (fun c => decide (c ∈ cutset.data))).reverse)

/-- Worker of `Split` for a one-character separator: `cur` holds the current
piece in reverse. -/
def splitAux (sep : Char) : List Char → List Char → List String
  | [], cur => [String.mk cur.reverse]
  | c :: cs, cur =>
    if c = sep then String.mk cur.reverse :: splitAux sep cs [] else splitAux sep cs (c :: cur)

/-- Go `strings.Split(s, sep)` for a separator of one character (the only use in
the source is `sep = " "`); the result always has at least one element. -/
def Split (s : String) (sep : Char) : List String := splitAux sep s.data []

/-- Worker of `Replace`: `fuel` bounds the number of steps (one per character). -/
def replaceAux (old new : List Char) : Nat → List Char → List Char
  | 0, s => s
  | _ + 1, [] => []
  | fuel + 1, c :: cs =>
    if old.isPrefixOf (c :: cs) then new ++ replaceAux old new fuel ((c :: cs).drop old.length)
    else c :: replaceAux old new fuel cs

/-- Go `strings.Replace(s, old, new, -1)` for a non-empty `old`: every
non-overlapping occurrence of `old`, found left to right, becomes `new`. -/
def Replace (s old new : String) : String :=
  String.mk (replaceAux old.data new.data s.data.length s.data)

/-! ## Constants of the packages `api` and `config` -/

/-- The string constants the two modules take from the packages `api` and
`config`.  Their values are not fixed by the two source files. -/
structure Consts where
  STATUS_SUCCESS : String
  STATUS_FAILURE : String
  APP_NON_EXIST : String
  APP_ALREADY_EXISTING : String
  GOLANG_VERSION_UNSET : String
  GOLANG_VERSION_MISMATCHING : String
  REASON_DOWNLOAD_FAILED : String
  APP_DIR : String
  APP_PREFIX : String
  SSH_SHELL : String
  GOLANG_DIR : String
  GOLANG_GOPATH : String

/-- One concrete choice of the constants, used to evaluate the model on
concrete inputs. -/
def demoConsts : Consts where
  STATUS_SUCCESS := "status_success"
  STATUS_FAILURE := "status_failure"
  APP_NON_EXIST := "app_non_exist"
  APP_ALREADY_EXISTING := "app_already_existing"
  GOLANG_VERSION_UNSET := "golang_version_unset"
  GOLANG_VERSION_MISMATCHING := "golang_version_mismatching"
  REASON_DOWNLOAD_FAILED := "reason_download_failed"
  APP_DIR := "/gohive/apps"
  APP_PREFIX := "gohive_app_"
  SSH_SHELL := "/usr/bin/mysecureshell"
  GOLANG_DIR := "/gohive/golang"
  GOLANG_GOPATH := "~/go"

namespace api

/-- Go `api.Status`: the structured result of an operation.  `Result` is an
`interface{}` in Go; the functions embedded here only store a string in it.
`Addition` is a `map[string]string`, kept as the list of its key/value pairs. -/
structure Status where
  Status : String
  Reason : String := ""
  Result : Option String := none
  Addition : List (String × String) := []
deriving DecidableEq, Repr

end api

/-! ## The state of the host and the answers of the outside world -/

/-- What a path of the file system holds. -/
inductive Node
  | dir
  | file (content : String)
deriving DecidableEq, Repr

/-- An external action performed by the code: a command that was executed
(with its full argument vector) or an HTTP GET. -/
inductive Event
  | exec (argv : List String)
  | httpGet (url : String)
deriving DecidableEq, Repr

/-- The mutable state the two modules act on. -/
structure World where
  /-- the file system: the paths that exist and what they hold -/
  fs : List (String × Node)
  /-- the OS principals (unix user names) -/
  users : List String
  /-- the configuration store: (app, module, key) ↦ value -/
  store : List ((String × String × String) × String)
  /-- the external actions performed so far, oldest first -/
  events : List Event
deriving DecidableEq, Repr

/-- Result of `exec.Cmd.CombinedOutput()`: the captured output and the error
(`none` is Go's `nil`: the command ran and exited with status 0). -/
structure CmdResult where
  output : String
  err : Option String
deriving DecidableEq, Repr

/-- The part of an `http.Response` the code reads.  `Body` is what the body
delivers; `CopyErr` is the error `io.Copy` meets while streaming it to the
temp file, if any. -/
structure HttpResponse where
  StatusCode : Nat
  Body : String
  CopyErr : Option String
deriving DecidableEq, Repr

/-- The answers of the outside world.  Every theorem quantifies over all of
them, so nothing is assumed about a command beyond what the field says. -/
structure Env where
  /-- answer of `useradd ... <unixname>` for a principal that does not exist yet -/
  useradd : String → CmdResult
  /-- answer of `userdel <unixname>` -/
  userdel : String → CmdResult
  /-- answer of `members gohive_app` -/
  members : CmdResult
  /-- answer of `runuser <unixname> -l -c <command line>` -/
  runuser : String → String → CmdResult
  /-- error of `ioutil.ReadDir(dir)`, if any -/
  readDir : String → Option String
  /-- error of `os.Create(path)`, if any -/
  create : String → Option String
  /-- answer of `http.Get(url)`: a transport error or a response -/
  httpGet : String → Except String HttpResponse
  /-- what `util.Shell("mkdir", path)` returns for a path that is free -/
  mkdir : String → String
  /-- what `util.Shell("tar", "xf", archive, ...)` returns for the archive with
  the given content, and the entries (relative path, node) it has written into
  the target directory by then -/
  tar : Option Node → String × List (String × Node)

/-- A Go call either returns a value or panics with a message. -/
inductive Outcome (α : Type)
  | ret (a : α)
  | panic (msg : String)
deriving DecidableEq, Repr

/-- The call returned (it did not panic). -/
def Outcome.returned {α : Type} : Outcome α → Bool
  | .ret _ => true
  | .panic _ => false

/-- Appends an external action to the record of the world. -/
def record (e : Event) (w : World) : World :=
  { w with events := w.events ++ [e] }

/-! ## File system primitives (package `os`, `io/ioutil`) -/

namespace FS

/-- What the path `p` holds, if it exists. -/
def get : List (String × Node) → String → Option Node
  | [], _ => none
  | (q, n) :: r, p => if q = p then some n else get r p

/-- The path exists. -/
def pathExists (fs : List (String × Node)) (p : String) : Bool := (get fs p).isSome

/-- The path exists and is a directory. -/
def isDir (fs : List (String × Node)) (p : String) : Bool := decide (get fs p = some Node.dir)

/-- Unlinks the single path `p`. -/
def remove (fs : List (String × Node)) (p : String) : List (String × Node) :=
  fs.filter (fun e => decide (e.1 ≠ p))

/-- Makes `p` hold `n`, replacing what it held. -/
def write (fs : List (String × Node)) (p : String) (n : Node) : List (String × Node) :=
  remove fs p ++ [(p, n)]

/-- The path `q` lies strictly below the directory `p`. -/
def below (p q : String) : Bool :=
  (p.data ++ [ '/' ]).isPrefixOf q.data && decide (p.data.length + 1 < q.data.length)

/-- The directory `p` has at least one entry. -/
def hasChildren (fs : List (String × Node)) (p : String) : Bool :=
  fs.any (fun e => below p e.1)

/-- The name under which `q` is listed in the directory `dir`, when `q` is an
immediate child of `dir`. -/
def childName (dir q : String) : Option String :=
  if (dir.data ++ [ '/' ]).isPrefixOf q.data then
    let n := q.data.drop (dir.data.length + 1)
    if n ≠ [] ∧ '/' ∉ n then some (String.mk n) else none
  else none

end FS

/-- Go `os.FileInfo`, reduced to the two methods the code calls. -/
structure FileInfo where
  Name : String
  IsDir : Bool
deriving DecidableEq, Repr

/-- Order of file names: byte-wise lexicographic. -/
def nameLe (a b : FileInfo) : Prop := a.Name.data ≤ b.Name.data

instance : DecidableRel nameLe :=
  fun a b => inferInstanceAs (Decidable (a.Name.data ≤ b.Name.data))

/-- Go `ioutil.ReadDir(dir)`: the entries of the directory sorted by file name,
or an error. -/
def ReadDir (env : Env) (dir : String) (w : World) : Except String (List FileInfo) :=
  match env.readDir dir with
  | some e => .error e
  | none =>
    .ok ((w.fs.filterMap (fun e =>
      (FS.childName dir e.1).map (fun n => FileInfo.mk n (decide (e.2 = Node.dir))))).insertionSort
        nameLe)

/-- Go `os.Create(path)`: creates or truncates the regular file; the error, if
any, is returned and nothing changes. -/
def osCreate (env : Env) (path : String) (w : World) : Option String × World :=
  match env.create path with
  | some e => (some e, w)
  | none =>
    if FS.get w.fs path = some Node.dir then (some ("open " ++ path ++ ": is a directory"), w)
    else (none, { w with fs := FS.write w.fs path (Node.file "") })

/-- Go `os.Remove(path)` with the error dropped: unlinks a file or an empty
directory. -/
def osRemove (path : String) (w : World) : World :=
  match FS.get w.fs path with
  | some (Node.file _) => { w with fs := FS.remove w.fs path }
  | some Node.dir => if FS.hasChildren w.fs path then w else { w with fs := FS.remove w.fs path }
  | none => w

/-- Go `os.RemoveAll(path)` with the error dropped: removes the path and
everything below it. -/
def osRemoveAll (path : String) (w : World) : World :=
  { w with fs := w.fs.filter (fun e => decide (e.1 ≠ path) && !FS.below path e.1) }

/-- Go `os.MkdirAll(path, perm)` with the error dropped: creates the directory
unless the path already exists.  (The parents already exist where the code
calls it: `useradd -b APP_DIR -m` has just created the home directory.) -/
def osMkdirAll (path : String) (w : World) : World :=
  if FS.pathExists w.fs path then w else { w with fs := FS.write w.fs path Node.dir }

/-- Go `io.Copy(tmp, resp.Body)`: the delivered bytes end up in the file; the
error, if any, is returned. -/
def ioCopy (path : String) (resp : HttpResponse) (w : World) : Option String × World :=
  (resp.CopyErr, { w with fs := FS.write w.fs path (Node.file resp.Body) })

/-- Go `http.Get(url)`. -/
def httpGet (env : Env) (url : String) (w : World) : Except String HttpResponse × World :=
  (env.httpGet url, record (Event.httpGet url) w)

/-! ## Package `config` -/

namespace config

/-- Modelled from the spec: `config.AppConfigGet(name, module, key, default)` is
the Config Store's `Get(tenant, module, key, default) -> string`: the stored
value, or the default when none is stored.  Reading does not change the
store. -/
def AppConfigGet (name mod key default : String) (w : World) : String × World :=
  (((w.store.lookup (name, mod, key)).getD default), w)

end config

/-! ## Package `util` -/

namespace util

/-- Modelled from the spec: `util.Includes(list, s)` tells whether the string
is an element of the list ("if the desired version's directory is absent"). -/
def Includes (list : List String) (s : String) : Bool := decide (s ∈ list)

/-- Modelled from the spec: `util.Shell("mkdir", path)`, the Command Executor
run on `mkdir`: it returns the empty string exactly when the command
succeeded, and the diagnostic text otherwise.  `mkdir` fails on a path that
exists; when it succeeds the directory exists afterwards. -/
def ShellMkdir (env : Env) (path : String) (w : World) : String × World :=
  let w1 := record (Event.exec ["mkdir", path]) w
  if FS.pathExists w.fs path then
    ("mkdir: cannot create directory " ++ path ++ ": File exists", w1)
  else if env.mkdir path = "" then ("", { w1 with fs := FS.write w1.fs path Node.dir })
  else (env.mkdir path, w1)

/-- Modelled from the spec: `util.Shell("tar", "xf", archive, "-C", target,
"--strip-components", "1")`: returns the empty string exactly when `tar`
succeeded.  Whatever it has extracted by then lies below `target`. -/
def ShellTar (env : Env) (archive target : String) (w : World) : String × World :=
  let w1 := record (Event.exec ["tar", "xf", archive, "-C", target, "--strip-components", "1"]) w
  let r := env.tar (FS.get w.fs archive)
  (r.1, { w1 with fs := r.2.foldl (fun fs e => FS.write fs (target ++ "/" ++ e.1) e.2) w1.fs })

end util

/-! ## Command execution (package `os/exec`) -/

/-- The command `useradd -b APP_DIR -m -s SSH_SHELL -g <group> -K UMASK=0077
<unixname>` run through `CombinedOutput()`.  It fails for a principal that
exists; when it succeeds the principal and its home directory
`APP_DIR/<unixname>` exist. -/
def execUseradd (k : Consts) (env : Env) (group unixname : String) (w : World) :
    CmdResult × World :=
  let w1 := record (Event.exec ["useradd", "-b", k.APP_DIR, "-m", "-s", k.SSH_SHELL,
    "-g", group, "-K", "UMASK=0077", unixname]) w
  if unixname ∈ w.users then
    (CmdResult.mk ("useradd: user \x27" ++ unixname ++ "\x27 already exists\n")
      (some "exit status 9"), w1)
  else
    match (env.useradd unixname).err with
    | some _ => (env.useradd unixname, w1)
    | none =>
      (env.useradd unixname,
        { w1 with users := w1.users ++ [unixname],
                  fs := FS.write w1.fs (k.APP_DIR ++ "/" ++ unixname) Node.dir })

/-- The command `userdel <unixname>` run through `CombinedOutput()`: when it
succeeds the principal is gone (the home directory stays). -/
def execUserdel (env : Env) (unixname : String) (w : World) : CmdResult × World :=
  let w1 := record (Event.exec ["userdel", unixname]) w
  match (env.userdel unixname).err with
  | some _ => (env.userdel unixname, w1)
  | none => (env.userdel unixname, { w1 with users := w1.users.filter (fun u => decide (u ≠ unixname)) })

/-- The command `members <group>` run through `CombinedOutput()`. -/
def execMembers (env : Env) (group : String) (w : World) : CmdResult × World :=
  (env.members, record (Event.exec ["members", group]) w)

/-- The command `runuser <unixname> -l -c <command line>` run through
`CombinedOutput()`. -/
def execRunuser (env : Env) (unixname cmdline : String) (w : World) : CmdResult × World :=
  (env.runuser unixname cmdline, record (Event.exec ["runuser", unixname, "-l", "-c", cmdline]) w)

/-! ## Package `linux` (module/linux/linux.go) -/

namespace linux

def Prefix : String := "gohive_app_"

def Group : String := "gohive_app"

def Suffix : String := ".data"

def getHomeDir (k : Consts) (name : String) : String :=
  k.APP_DIR ++ "/" ++ Prefix ++ name

def getDataDir (k : Consts) (name : String) : String :=
  k.APP_DIR ++ "/" ++ Prefix ++ name ++ Suffix

/-- Go `(*linux).Status`: the body is a `// TODO` that reports `APP_NON_EXIST`
for every name. -/
def Status (k : Consts) (_name : String) (w : World) : Outcome api.Status × World :=
  (Outcome.ret { Status := k.APP_NON_EXIST }, w)

/-- Go `(*linux).Create`; the returned `error` is `none` for `nil`. -/
def Create (k : Consts) (env : Env) (name : String) (w : World) :
    Outcome (Option String) × World :=
  match Status k name w with
  | (Outcome.panic msg, w0) => (Outcome.panic msg, w0)
  | (Outcome.ret st, w0) =>
    if st.Status = k.APP_NON_EXIST then
      let unixname := Prefix ++ name
      match execUseradd k env Group unixname w0 with
      | (r, w1) =>
        match r.err with
        | some e => (Outcome.panic (r.output ++ e), w1)
        | none => (Outcome.ret none, osMkdirAll (getDataDir k name) w1)
    else
      (Outcome.ret (some k.APP_ALREADY_EXISTING), w0)

/-- Go `(*linux).Rename`. -/
def Rename (_oldName _newName : String) (w : World) : Outcome (Option String) × World :=
  (Outcome.ret none, w)

/-- Go `(*linux).Remove`. -/
def Remove (k : Consts) (env : Env) (name : String) (w : World) :
    Outcome (Option String) × World :=
  match Status k name w with
  | (Outcome.panic msg, w0) => (Outcome.panic msg, w0)
  | (Outcome.ret st, w0) =>
    if st.Status = k.APP_NON_EXIST then
      (Outcome.ret (some k.APP_NON_EXIST), w0)
    else
      let unixname := Prefix ++ name
      match execUserdel env unixname w0 with
      | (_, w1) =>
        (Outcome.ret none, osRemoveAll (getDataDir k name) (osRemoveAll (getHomeDir k name) w1))

/-- Go `(*linux).Repair`. -/
def Repair (_name : String) (w : World) : Outcome (Option String) × World :=
  (Outcome.ret none, w)

/-- The `for _, member := range members` loop of `ListRemoved`: `ret` is the
slice built so far. -/
def removedLoop (k : Consts) : List String → List String → World → Outcome (List String) × World
  | [], ret, w => (Outcome.ret ret, w)
  | member :: rest, ret, w =>
    match Status k member w with
    | (Outcome.panic msg, w1) => (Outcome.panic msg, w1)
    | (Outcome.ret st, w1) =>
      if st.Status ≠ k.STATUS_SUCCESS then removedLoop k rest (ret ++ [member]) w1
      else removedLoop k rest ret w1

/-- Go `(*linux).ListRemoved`. -/
def ListRemoved (k : Consts) (env : Env) (w : World) : Outcome (List String) × World :=
  match execMembers env Group w with
  | (r, w1) =>
    match r.err with
    | some e => (Outcome.panic e, w1)
    | none =>
      let members := Split (Trim r.output "\n") ' '
      removedLoop k members [] w1

end linux

/-! ## Package `golang` (module/golang/golang.go) -/

namespace golang

def GO_PREFIX : String := "go"

def GO_DOWNLOAD_PATH : String :=
  "https://dl.google.com/go/go\x7b\x7bVERSION\x7d\x7d.linux-amd64.tar.gz"

/-- Go `runcomHandler`. -/
def runcomHandler (k : Consts) (name : String) (w : World) : List String × World :=
  match config.AppConfigGet name "golang" "version" "" w with
  | (version, w1) =>
    let goroot := k.GOLANG_DIR ++ "/" ++ GO_PREFIX ++ version
    (["export GOPATH=" ++ k.GOLANG_GOPATH,
      "export GOROOT=" ++ goroot,
      "export PATH=$GOROOT/bin:$PATH"], w1)

/-- Go `(*golang).Create`. -/
def Create (k : Consts) (_name : String) (w : World) : Outcome api.Status × World :=
  (Outcome.ret { Status := k.STATUS_SUCCESS }, w)

/-- Go `(*golang).Remove`. -/
def Remove (k : Consts) (_name : String) (w : World) : Outcome api.Status × World :=
  (Outcome.ret { Status := k.STATUS_SUCCESS }, w)

/-- Go `(*golang).Status`. -/
def Status (k : Consts) (env : Env) (name : String) (w : World) : Outcome api.Status × World :=
  match config.AppConfigGet name "golang" "version" "" w with
  | (version, w1) =>
    if version = "" then
      (Outcome.ret { Status := k.STATUS_FAILURE, Reason := k.GOLANG_VERSION_UNSET }, w1)
    else
      let unixname := k.APP_PREFIX ++ name
      match execRunuser env unixname "go version" w1 with
      | (r, w2) =>
        match r.err with
        | some _ => (Outcome.ret { Status := k.STATUS_FAILURE, Reason := r.output }, w2)
        | none =>
          let output := r.output
          if Contains output version then
            (Outcome.ret { Status := k.STATUS_SUCCESS, Result := some output }, w2)
          else
            (Outcome.ret { Status := k.STATUS_FAILURE,
                           Reason := k.GOLANG_VERSION_MISMATCHING,
                           Addition := [("Desired", version), ("Presented", output)] }, w2)

/-- Go `GetGolangList`: the names of the directories in `GOLANG_DIR` that start
with `GO_PREFIX`; panics when the directory cannot be read. -/
def GetGolangList (k : Consts) (env : Env) (w : World) : Outcome (List String) × World :=
  match ReadDir env k.GOLANG_DIR w with
  | .error e => (Outcome.panic e, w)
  | .ok files =>
    (Outcome.ret ((files.filter (fun file => file.IsDir && HasPrefix file.Name GO_PREFIX)).map
      FileInfo.Name), w)

/-- The argument of `http.Get` in `SetGolangInstallation`:
`strings.Replace(GO_DOWNLOAD_PATH, "\x7b\x7bVERSION\x7d\x7d", version, -1)`. -/
def archiveUrl (version : String) : String :=
  Replace GO_DOWNLOAD_PATH "\x7b\x7bVERSION\x7d\x7d" version

/-- The part of Go `SetGolangInstallation` that runs once the temp file exists
and the two `defer`s are registered. -/
def installFrom (k : Consts) (env : Env) (version tmpPath : String) (w : World) :
    api.Status × World :=
  match httpGet env (archiveUrl version) w with
  | (.error e, w1) => ({ Status := k.STATUS_FAILURE, Reason := e }, w1)
  | (.ok resp, w1) =>
    if resp.StatusCode ≠ 200 then
      ({ Status := k.STATUS_FAILURE, Reason := k.REASON_DOWNLOAD_FAILED }, w1)
    else
      match ioCopy tmpPath resp w1 with
      | (some e, w2) => ({ Status := k.STATUS_FAILURE, Reason := e }, w2)
      | (none, w2) =>
        let outputPath := k.GOLANG_DIR ++ "/go" ++ version
        match util.ShellMkdir env outputPath w2 with
        | (t, w3) =>
          if t ≠ "" then ({ Status := k.STATUS_FAILURE, Reason := t }, w3)
          else
            match util.ShellTar env tmpPath outputPath w3 with
            | (t, w4) =>
              if t ≠ "" then ({ Status := k.STATUS_FAILURE, Reason := t }, w4)
              else ({ Status := k.STATUS_SUCCESS }, w4)

/-- Go `SetGolangInstallation`.  The deferred `os.Remove(tmpPath)` (and
`tmp.Close()`) run on every return that follows the successful `os.Create`. -/
def SetGolangInstallation (k : Consts) (env : Env) (version : String) (w : World) :
    api.Status × World :=
  let tmpPath := k.GOLANG_DIR ++ "/go" ++ version ++ ".tmp"
  match osCreate env tmpPath w with
  | (some err, w0) => ({ Status := k.STATUS_FAILURE, Reason := err }, w0)
  | (none, w0) =>
    match installFrom k env version tmpPath w0 with
    | (status, w1) => (status, osRemove tmpPath w1)

/-- Go `(*golang).Repair`. -/
def Repair (k : Consts) (env : Env) (name : String) (w : World) : Outcome api.Status × World :=
  match config.AppConfigGet name "golang" "version" "" w with
  | (version, w1) =>
    match GetGolangList k env w1 with
    | (Outcome.panic msg, w2) => (Outcome.panic msg, w2)
    | (Outcome.ret list, w2) =>
      if !util.Includes list (GO_PREFIX ++ version) then
        match SetGolangInstallation k env version w2 with
        | (status, w3) =>
          if status.Status ≠ k.STATUS_SUCCESS then (Outcome.ret status, w3)
          else (Outcome.ret { Status := k.STATUS_SUCCESS }, w3)
      else
        (Outcome.ret { Status := k.STATUS_SUCCESS }, w2)

/-- Go `(*golang).ListRemoved`. -/
def ListRemoved (w : World) : Outcome (List String) × World :=
  (Outcome.ret [], w)

end golang

/-! ## Concrete inputs -/

/-- An environment in which every command succeeds silently and the archive
server answers 200. -/
def quietEnv : Env where
  useradd := fun _ => CmdResult.mk "" none
  userdel := fun _ => CmdResult.mk "" none
  members := CmdResult.mk "" none
  runuser := fun _ _ => CmdResult.mk "" none
  readDir := fun _ => none
  create := fun _ => none
  httpGet := fun _ => Except.ok (HttpResponse.mk 200 "archive" none)
  mkdir := fun _ => ""
  tar := fun _ => ("", [("bin", Node.dir), ("bin/go", Node.file "elf")])

/-- A host with nothing on it but the two root directories. -/
def emptyWorld : World where
  fs := [("/gohive/apps", Node.dir), ("/gohive/golang", Node.dir)]
  users := []
  store := []
  events := []

/-- The call returned an `api.Status` whose `Status` field is `s`. -/
def Outcome.hasStatus (o : Outcome api.Status) (s : String) : Bool :=
  match o with
  | Outcome.ret st => decide (st.Status = s)
  | Outcome.panic _ => false

/-- The app `demo` with the desired version `1.21.0` in the configuration store. -/
def demoWorld : World where
  fs := [("/gohive/apps", Node.dir), ("/gohive/golang", Node.dir)]
  users := ["gohive_app_demo"]
  store := [(("demo", "golang", "version"), "1.21.0")]
  events := []

/-- An environment in which `go version` prints the version line and the
command still exits with a non-zero status. -/
def exitOneEnv : Env where
  useradd := fun _ => CmdResult.mk "" none
  userdel := fun _ => CmdResult.mk "" none
  members := CmdResult.mk "" none
  runuser := fun _ _ => CmdResult.mk "go version go1.21.0 linux/amd64" (some "exit status 1")
  readDir := fun _ => none
  create := fun _ => none
  httpGet := fun _ => Except.ok (HttpResponse.mk 200 "archive" none)
  mkdir := fun _ => ""
  tar := fun _ => ("", [])

/-- An environment in which `go version` prints the version line and exits
with status 0. -/
def go121Env : Env where
  useradd := fun _ => CmdResult.mk "" none
  userdel := fun _ => CmdResult.mk "" none
  members := CmdResult.mk "" none
  runuser := fun _ _ => CmdResult.mk "go version go1.21.0 linux/amd64" none
  readDir := fun _ => none
  create := fun _ => none
  httpGet := fun _ => Except.ok (HttpResponse.mk 200 "archive" none)
  mkdir := fun _ => ""
  tar := fun _ => ("", [])

/-- The host after `linux.Create` has provisioned the tenants `a` and `c`
(principal, home directory and data directory each). -/
def acWorld : World :=
  (linux.Create demoConsts quietEnv "c" (linux.Create demoConsts quietEnv "a" emptyWorld).2).2

/-- An environment in which `members gohive_app` prints `a b c`. -/
def abcEnv : Env where
  useradd := fun _ => CmdResult.mk "" none
  userdel := fun _ => CmdResult.mk "" none
  members := CmdResult.mk "a b c\n" none
  runuser := fun _ _ => CmdResult.mk "" none
  readDir := fun _ => none
  create := fun _ => none
  httpGet := fun _ => Except.ok (HttpResponse.mk 200 "archive" none)
  mkdir := fun _ => ""
  tar := fun _ => ("", [])

/-- The host right after a successful `linux.Create` of the tenant `demo`. -/
def tenantWorld : World := (linux.Create demoConsts quietEnv "demo" emptyWorld).2

/-- An environment in which `useradd`, `userdel` and `members` exit with an
error, and the pool directory cannot be listed. -/
def failingEnv : Env where
  useradd := fun _ => CmdResult.mk "useradd: cannot lock /etc/passwd; try again later.\n"
    (some "exit status 1")
  userdel := fun _ => CmdResult.mk "userdel: cannot lock /etc/passwd; try again later.\n"
    (some "exit status 1")
  members := CmdResult.mk "" (some "exec: \"members\": executable file not found in $PATH")
  runuser := fun _ _ => CmdResult.mk "" (some "exit status 1")
  readDir := fun _ => some "open /gohive/golang: permission denied"
  create := fun _ => some "permission denied"
  httpGet := fun _ => Except.error "dial tcp: i/o timeout"
  mkdir := fun _ => "mkdir: permission denied"
  tar := fun _ => ("tar: permission denied", [])

/-- An environment in which the archive server answers 404. -/
def notFoundEnv : Env where
  useradd := fun _ => CmdResult.mk "" none
  userdel := fun _ => CmdResult.mk "" none
  members := CmdResult.mk "" none
  runuser := fun _ _ => CmdResult.mk "" none
  readDir := fun _ => none
  create := fun _ => none
  httpGet := fun _ => Except.ok (HttpResponse.mk 404 "Not Found" none)
  mkdir := fun _ => ""
  tar := fun _ => ("", [])

/-- An environment in which the download and `mkdir` succeed and `tar` fails
after it has extracted one entry. -/
def tarFailsEnv : Env where
  useradd := fun _ => CmdResult.mk "" none
  userdel := fun _ => CmdResult.mk "" none
  members := CmdResult.mk "" none
  runuser := fun _ _ => CmdResult.mk "" none
  readDir := fun _ => none
  create := fun _ => none
  httpGet := fun _ => Except.ok (HttpResponse.mk 200 "truncated archive" none)
  mkdir := fun _ => ""
  tar := fun _ => ("tar: Unexpected EOF in archive\nexit status 2", [("bin", Node.dir)])

/-- The empty host with the desired version `1.20.4` stored for `demo`. -/
def wantWorld : World where
  fs := [("/gohive/apps", Node.dir), ("/gohive/golang", Node.dir)]
  users := ["gohive_app_demo"]
  store := [(("demo", "golang", "version"), "1.20.4")]
  events := []

/-! ## Theorems -/

/-! ### `golang.Status` -/

/-- C1, as stated, fails: with desired version `1.21.0`, the output
`go version go1.21.0 linux/amd64` contains the version, yet when the command
exits with an error `golang.Status` returns `STATUS_FAILURE` (with the output
as the reason), not `STATUS_SUCCESS`. -/
theorem Status_failure_although_output_contains_version :
    Contains "go version go1.21.0 linux/amd64" "1.21.0" = true ∧
    (golang.Status demoConsts exitOneEnv "demo" demoWorld).1 =
      Outcome.ret { Status := "status_failure", Reason := "go version go1.21.0 linux/amd64" } ∧
    ¬ ((golang.Status demoConsts exitOneEnv "demo" demoWorld).1.hasStatus
          demoConsts.STATUS_SUCCESS = true ↔
        Contains (exitOneEnv.runuser "gohive_app_demo" "go version").output "1.21.0" = true) := by
  decide

/-- C1, amended: for a tenant whose desired version `v` is non-empty,
`golang.Status` returns `STATUS_SUCCESS` if and only if the `go version` command
run as the tenant exited without error and its combined output `o` contains `v`
as a substring; in that case the result is exactly `STATUS_SUCCESS` with
`Result = o`.  When the command exits with an error the result is
`STATUS_FAILURE` with `o` as the reason, whatever `o` contains; when it exits
without error and `o` does not contain `v` the result is `STATUS_FAILURE` with
reason `GOLANG_VERSION_MISMATCHING` and the pair desired/presented.  In every
case the command is the one external action performed. -/
theorem Status_success_iff (k : Consts) (env : Env) (name : String) (w : World)
    (hv : (config.AppConfigGet name "golang" "version" "" w).1 ≠ "")
    (hk : k.STATUS_SUCCESS ≠ k.STATUS_FAILURE) :
    ((golang.Status k env name w).1.hasStatus k.STATUS_SUCCESS = true ↔
      ((env.runuser (k.APP_PREFIX ++ name) "go version").err = none ∧
        ((config.AppConfigGet name "golang" "version" "" w).1).data <:+:
          (env.runuser (k.APP_PREFIX ++ name) "go version").output.data)) ∧
    ((golang.Status k env name w).1.hasStatus k.STATUS_SUCCESS = true →
      (golang.Status k env name w).1 = Outcome.ret
        { Status := k.STATUS_SUCCESS,
          Result := some (env.runuser (k.APP_PREFIX ++ name) "go version").output }) ∧
    (∀ e : String, (env.runuser (k.APP_PREFIX ++ name) "go version").err = some e →
      (golang.Status k env name w).1 = Outcome.ret
        { Status := k.STATUS_FAILURE,
          Reason := (env.runuser (k.APP_PREFIX ++ name) "go version").output }) ∧
    ((env.runuser (k.APP_PREFIX ++ name) "go version").err = none →
      ¬ ((config.AppConfigGet name "golang" "version" "" w).1).data <:+:
          (env.runuser (k.APP_PREFIX ++ name) "go version").output.data →
      (golang.Status k env name w).1 = Outcome.ret
        { Status := k.STATUS_FAILURE,
          Reason := k.GOLANG_VERSION_MISMATCHING,
          Addition := [("Desired", (config.AppConfigGet name "golang" "version" "" w).1),
            ("Presented", (env.runuser (k.APP_PREFIX ++ name) "go version").output)] }) ∧
    (golang.Status k env name w).2 =
      record (Event.exec ["runuser", k.APP_PREFIX ++ name, "-l", "-c", "go version"]) w := by
  simp only [config.AppConfigGet] at hv
  simp only [golang.Status, config.AppConfigGet, execRunuser, if_neg hv]
  cases herr : (env.runuser (k.APP_PREFIX ++ name) "go version").err with
  | some e => simp [Outcome.hasStatus, Ne.symm hk]
  | none =>
    by_cases hc : Contains (env.runuser (k.APP_PREFIX ++ name) "go version").output
        ((w.store.lookup (name, "golang", "version")).getD "") = true
    · have hc2 := hc
      simp only [Contains, decide_eq_true_eq] at hc2
      simp [Outcome.hasStatus, hc, hc2]
    · have hc2 := hc
      simp only [Contains, decide_eq_true_eq] at hc2
      simp [Outcome.hasStatus, hc, hc2, Ne.symm hk]

/-- Witness of `Status_success_iff`: desired version `1.21.0` and output
`go version go1.21.0 linux/amd64`; with exit status 0 the result is the
success with `Result` the output, with exit status 1 it is the failure with
`Reason` the output. -/
theorem Status_success_iff_witness :
    (golang.Status demoConsts go121Env "demo" demoWorld).1 = Outcome.ret
      { Status := "status_success", Result := some "go version go1.21.0 linux/amd64" } ∧
    (golang.Status demoConsts exitOneEnv "demo" demoWorld).1 = Outcome.ret
      { Status := "status_failure", Reason := "go version go1.21.0 linux/amd64" } :=
  ⟨(Status_success_iff demoConsts go121Env "demo" demoWorld (by decide) (by decide)).2.1
      (by decide),
   (Status_success_iff demoConsts exitOneEnv "demo" demoWorld (by decide) (by decide)).2.2.1
      "exit status 1" rfl⟩

/-- C8: when the desired version of the tenant is the empty string (the
default of the configuration store), `golang.Status` returns `STATUS_FAILURE`
with reason `GOLANG_VERSION_UNSET` and leaves the world, the record of executed
commands included, as it was: the version command is not run, whatever it would
have answered. -/
theorem Status_version_unset (k : Consts) (env : Env) (name : String) (w : World)
    (hv : (config.AppConfigGet name "golang" "version" "" w).1 = "") :
    golang.Status k env name w =
      (Outcome.ret { Status := k.STATUS_FAILURE, Reason := k.GOLANG_VERSION_UNSET }, w) := by
  simp only [config.AppConfigGet] at hv
  simp only [golang.Status, config.AppConfigGet, if_pos hv]

/-- Witness of `Status_version_unset`: no version is stored for `demo` on the
empty host, and the environment would have answered the command. -/
theorem Status_version_unset_witness :
    golang.Status demoConsts go121Env "demo" emptyWorld =
      (Outcome.ret { Status := "status_failure", Reason := "golang_version_unset" }, emptyWorld) :=
  Status_version_unset demoConsts go121Env "demo" emptyWorld (by decide)

/-! ### `runcomHandler` -/

/-- C10: `runcomHandler` returns exactly the three lines `export GOPATH=` +
`GOLANG_GOPATH`, `export GOROOT=` + `GOLANG_DIR` + `/go` + `v` and
`export PATH=$GOROOT/bin:$PATH`, where `v` is the configuration store's value
for (tenant, `golang`, `version`); it leaves the world unchanged, and two worlds
with the same stored version give the same list. -/
theorem runcomHandler_spec (k : Consts) (name : String) (w : World) :
    (golang.runcomHandler k name w).1 =
      ["export GOPATH=" ++ k.GOLANG_GOPATH,
       "export GOROOT=" ++ k.GOLANG_DIR ++ "/go" ++
          (config.AppConfigGet name "golang" "version" "" w).1,
       "export PATH=$GOROOT/bin:$PATH"] ∧
    (golang.runcomHandler k name w).2 = w ∧
    ∀ w2 : World,
      (config.AppConfigGet name "golang" "version" "" w2).1 =
        (config.AppConfigGet name "golang" "version" "" w).1 →
      (golang.runcomHandler k name w2).1 = (golang.runcomHandler k name w).1 := by
  refine ⟨?_, rfl, ?_⟩
  · have h : ("/" : String) ++ "go" = "/go" := by decide
    simp only [golang.runcomHandler, config.AppConfigGet, golang.GO_PREFIX, String.append_assoc]
    rw [← String.append_assoc "/" "go", h]
  · intro w2 h
    simp only [config.AppConfigGet] at h
    simp only [golang.runcomHandler, config.AppConfigGet, h]

/-- Witness of `runcomHandler_spec`: the lines for `demo` with version `1.21.0`,
and the same lines on a world that differs in everything but the store. -/
theorem runcomHandler_spec_witness :
    (golang.runcomHandler demoConsts "demo" demoWorld).1 =
      ["export GOPATH=~/go", "export GOROOT=/gohive/golang/go1.21.0",
       "export PATH=$GOROOT/bin:$PATH"] ∧
    (golang.runcomHandler demoConsts "demo"
        (World.mk [] [] [(("demo", "golang", "version"), "1.21.0")] [])).1 =
      (golang.runcomHandler demoConsts "demo" demoWorld).1 :=
  ⟨(runcomHandler_spec demoConsts "demo" demoWorld).1.trans (by decide),
   (runcomHandler_spec demoConsts "demo" demoWorld).2.2 _ (by decide)⟩

/-! ### Package `linux` -/

/-- The loop of `ListRemoved` keeps every member (or none, should the two
constants coincide), whatever the world holds. -/
theorem removedLoop_eq (k : Consts) (members ret : List String) (w : World) :
    linux.removedLoop k members ret w =
      (Outcome.ret (ret ++ if k.APP_NON_EXIST = k.STATUS_SUCCESS then [] else members), w) := by
  induction members generalizing ret with
  | nil => simp [linux.removedLoop]
  | cons m rest ih =>
    by_cases h : k.APP_NON_EXIST = k.STATUS_SUCCESS
    · simp [linux.removedLoop, linux.Status, h, ih]
    · simp [linux.removedLoop, linux.Status, h, ih]

/-- The function `linux.Remove` takes its first branch for every name and every world. -/
theorem linux_Remove_eq (k : Consts) (env : Env) (name : String) (w : World) :
    linux.Remove k env name w = (Outcome.ret (some k.APP_NON_EXIST), w) := by
  simp [linux.Remove, linux.Status]

/-- The function `linux.Create` runs `useradd` for every name and every world. -/
theorem linux_Create_eq (k : Consts) (env : Env) (name : String) (w : World) :
    linux.Create k env name w =
      match (execUseradd k env linux.Group (linux.Prefix ++ name) w).1.err with
      | some e =>
        (Outcome.panic ((execUseradd k env linux.Group (linux.Prefix ++ name) w).1.output ++ e),
          (execUseradd k env linux.Group (linux.Prefix ++ name) w).2)
      | none =>
        (Outcome.ret none,
          osMkdirAll (linux.getDataDir k name)
            (execUseradd k env linux.Group (linux.Prefix ++ name) w).2) := by
  simp only [linux.Create, linux.Status, if_true]

/-- C2, evaluated: the group has the members `a`, `b`, `c` and the tenants `a`
and `c` are managed (both were provisioned by `linux.Create`), yet
`linux.ListRemoved` returns all three members, not just `b`. -/
theorem ListRemoved_returns_managed_members :
    ("gohive_app_a" ∈ acWorld.users ∧ "gohive_app_c" ∈ acWorld.users ∧
      FS.isDir acWorld.fs (linux.getDataDir demoConsts "a") = true ∧
      FS.isDir acWorld.fs (linux.getDataDir demoConsts "c") = true) ∧
    (linux.ListRemoved demoConsts abcEnv acWorld).1 = Outcome.ret ["a", "b", "c"] := by
  decide

/-- C3, evaluated: the tenant `demo` exists (principal, home and data
directory), yet `linux.Create` of `demo` does not return
`APP_ALREADY_EXISTING`: it runs `useradd` again and panics on its failure. -/
theorem Create_existing_runs_useradd :
    ("gohive_app_demo" ∈ tenantWorld.users ∧
      FS.isDir tenantWorld.fs (linux.getHomeDir demoConsts "demo") = true ∧
      FS.isDir tenantWorld.fs (linux.getDataDir demoConsts "demo") = true) ∧
    linux.Create demoConsts quietEnv "demo" tenantWorld =
      (Outcome.panic "useradd: user \x27gohive_app_demo\x27 already exists\nexit status 9",
        record (Event.exec ["useradd", "-b", "/gohive/apps", "-m", "-s",
          "/usr/bin/mysecureshell", "-g", "gohive_app", "-K", "UMASK=0077", "gohive_app_demo"])
          tenantWorld) := by
  decide

/-- C4, evaluated: right after a successful `linux.Create` of `demo`, whose
principal, home directory and data directory exist, `linux.Remove` of `demo`
returns the error `APP_NON_EXIST` and changes nothing: no `userdel` is run and
both directories are still there. -/
theorem Remove_existing_reports_non_exist :
    ("gohive_app_demo" ∈ tenantWorld.users ∧
      FS.isDir tenantWorld.fs (linux.getHomeDir demoConsts "demo") = true ∧
      FS.isDir tenantWorld.fs (linux.getDataDir demoConsts "demo") = true) ∧
    linux.Remove demoConsts quietEnv "demo" tenantWorld =
      (Outcome.ret (some "app_non_exist"), tenantWorld) ∧
    FS.isDir (linux.Remove demoConsts quietEnv "demo" tenantWorld).2.fs
      (linux.getHomeDir demoConsts "demo") = true ∧
    FS.isDir (linux.Remove demoConsts quietEnv "demo" tenantWorld).2.fs
      (linux.getDataDir demoConsts "demo") = true := by
  decide

/-! ### File system lemmas -/

theorem FS.get_remove (fs : List (String × Node)) (p q : String) :
    FS.get (FS.remove fs p) q = if p = q then none else FS.get fs q := by
  induction fs with
  | nil => simp [FS.remove, FS.get]
  | cons e r ih =>
    obtain ⟨a, n⟩ := e
    simp only [FS.remove] at ih ⊢
    by_cases hap : a = p
    · subst hap
      by_cases haq : a = q
      · subst haq
        simpa [List.filter, FS.get] using ih
      · simp only [List.filter, ne_eq, not_true_eq_false, decide_False, FS.get, if_neg haq]
        simpa [haq] using ih
    · by_cases haq : a = q
      · subst haq
        have : ¬ p = a := fun h => hap h.symm
        simp [List.filter, hap, FS.get, this]
      · simp only [List.filter, ne_eq, hap, not_false_eq_true, decide_True, FS.get, if_neg haq]
        exact ih

theorem FS.get_append_single (l : List (String × Node)) (p q : String) (n : Node) :
    FS.get (l ++ [(p, n)]) q =
      match FS.get l q with
      | some x => some x
      | none => if p = q then some n else none := by
  induction l with
  | nil => simp [FS.get]
  | cons e r ih =>
    obtain ⟨a, m⟩ := e
    by_cases haq : a = q
    · simp [FS.get, haq]
    · simp only [List.cons_append, FS.get, if_neg haq]
      exact ih

theorem FS.get_write (fs : List (String × Node)) (p q : String) (n : Node) :
    FS.get (FS.write fs p n) q = if p = q then some n else FS.get fs q := by
  rw [FS.write, FS.get_append_single, FS.get_remove]
  by_cases h : p = q
  · simp [h]
  · simp only [if_neg h]
    cases FS.get fs q <;> rfl

theorem FS.get_foldl_write (target q : String) (es : List (String × Node))
    (h : ∀ e ∈ es, target ++ "/" ++ e.1 ≠ q) (fs : List (String × Node)) :
    FS.get (es.foldl (fun fs e => FS.write fs (target ++ "/" ++ e.1) e.2) fs) q = FS.get fs q := by
  induction es generalizing fs with
  | nil => rfl
  | cons e r ih =>
    rw [List.foldl_cons, ih (fun x hx => h x (List.mem_cons_of_mem _ hx)), FS.get_write,
      if_neg (h e (List.mem_cons_self _ _))]

theorem FS.mem_of_get {fs : List (String × Node)} {p : String} {n : Node}
    (h : FS.get fs p = some n) : (p, n) ∈ fs := by
  induction fs with
  | nil => simp [FS.get] at h
  | cons e r ih =>
    obtain ⟨a, m⟩ := e
    by_cases hap : a = p
    · subst hap
      simp only [FS.get, if_true, Option.some.injEq] at h
      subst h
      exact List.mem_cons_self _ _
    · simp only [FS.get, if_neg hap] at h
      exact List.mem_cons_of_mem _ (ih h)

/-- A string differs from itself with a non-empty string appended. -/
theorem append_ne_self (a b : String) (hb : b ≠ "") : a ++ b ≠ a := by
  intro h
  have hl := congrArg String.length h
  rw [String.length_append] at hl
  have hb0 : b.length = 0 := by omega
  apply hb
  apply String.ext
  have hd : b.data.length = 0 := hb0
  exact List.length_eq_zero.mp hd

/-! ### `SetGolangInstallation` -/

/-- When `os.Create` succeeds, the file is there, empty, and nothing else
changed. -/
theorem osCreate_ok {env : Env} {path : String} {w : World}
    (h : (osCreate env path w).1 = none) :
    osCreate env path w = (none, { w with fs := FS.write w.fs path (Node.file "") }) := by
  unfold osCreate at h ⊢
  cases hc : env.create path with
  | some e => simp [hc] at h
  | none =>
    simp only [hc] at h ⊢
    by_cases hd : FS.get w.fs path = some Node.dir
    · simp [hd] at h
    · simp [hd]

/-- The deferred `os.Remove(tmpPath)` unlinks the temp file whenever it is a
regular file, and touches no other path. -/
theorem osRemove_file {path : String} {w : World} {c : String}
    (h : FS.get w.fs path = some (Node.file c)) :
    osRemove path w = { w with fs := FS.remove w.fs path } := by
  simp [osRemove, h]

/-- C5: if the temp file can be created and the HTTP fetch of the archive for
`v` answers with a status code other than 200, `SetGolangInstallation` returns
`STATUS_FAILURE` with reason `REASON_DOWNLOAD_FAILED`; the only external action
it performed is the HTTP GET (neither `mkdir` nor `tar` is run); the temp file
`GOLANG_DIR/go<v>.tmp` does not exist afterwards; and every other path,
`GOLANG_DIR/go<v>` included, holds what it held before. -/
theorem SetGolangInstallation_download_failed (k : Consts) (env : Env) (v : String) (w : World)
    (resp : HttpResponse)
    (hc : (osCreate env (k.GOLANG_DIR ++ "/go" ++ v ++ ".tmp") w).1 = none)
    (hg : env.httpGet (golang.archiveUrl v) = Except.ok resp)
    (hs : resp.StatusCode ≠ 200) :
    (golang.SetGolangInstallation k env v w).1 =
      { Status := k.STATUS_FAILURE, Reason := k.REASON_DOWNLOAD_FAILED } ∧
    (golang.SetGolangInstallation k env v w).2.events =
      w.events ++ [Event.httpGet (golang.archiveUrl v)] ∧
    FS.pathExists (golang.SetGolangInstallation k env v w).2.fs
      (k.GOLANG_DIR ++ "/go" ++ v ++ ".tmp") = false ∧
    FS.get (golang.SetGolangInstallation k env v w).2.fs (k.GOLANG_DIR ++ "/go" ++ v) =
      FS.get w.fs (k.GOLANG_DIR ++ "/go" ++ v) ∧
    ∀ q : String, q ≠ k.GOLANG_DIR ++ "/go" ++ v ++ ".tmp" →
      FS.get (golang.SetGolangInstallation k env v w).2.fs q = FS.get w.fs q := by
  have hfile : FS.get (FS.write w.fs (k.GOLANG_DIR ++ "/go" ++ v ++ ".tmp") (Node.file ""))
      (k.GOLANG_DIR ++ "/go" ++ v ++ ".tmp") = some (Node.file "") := by
    rw [FS.get_write, if_pos rfl]
  have hrun : golang.SetGolangInstallation k env v w =
      ({ Status := k.STATUS_FAILURE, Reason := k.REASON_DOWNLOAD_FAILED },
        { w with fs := FS.remove (FS.write w.fs (k.GOLANG_DIR ++ "/go" ++ v ++ ".tmp")
                    (Node.file "")) (k.GOLANG_DIR ++ "/go" ++ v ++ ".tmp"),
                 events := w.events ++ [Event.httpGet (golang.archiveUrl v)] }) := by
    simp only [golang.SetGolangInstallation, osCreate_ok hc, golang.installFrom, httpGet, hg,
      record, ne_eq, hs, not_false_eq_true, if_true]
    rw [osRemove_file hfile]
  have hother : ∀ q : String, q ≠ k.GOLANG_DIR ++ "/go" ++ v ++ ".tmp" →
      FS.get (golang.SetGolangInstallation k env v w).2.fs q = FS.get w.fs q := by
    intro q hq
    rw [hrun]
    simp only [FS.get_remove, FS.get_write, if_neg (Ne.symm hq)]
  refine ⟨by rw [hrun], by rw [hrun], ?_, ?_, hother⟩
  · rw [hrun]
    simp [FS.pathExists, FS.get_remove]
  · apply hother
    intro h
    exact append_ne_self _ ".tmp" (by decide) h.symm

/-- Witness of `SetGolangInstallation_download_failed`: version `9.9.9` on the
empty host, the server answering 404. -/
theorem SetGolangInstallation_download_failed_witness :
    (osCreate notFoundEnv (demoConsts.GOLANG_DIR ++ "/go" ++ "9.9.9" ++ ".tmp") emptyWorld).1 = none ∧
    (golang.SetGolangInstallation demoConsts notFoundEnv "9.9.9" emptyWorld).1 =
      { Status := demoConsts.STATUS_FAILURE, Reason := demoConsts.REASON_DOWNLOAD_FAILED } ∧
    FS.pathExists (golang.SetGolangInstallation demoConsts notFoundEnv "9.9.9" emptyWorld).2.fs
      (demoConsts.GOLANG_DIR ++ "/go" ++ "9.9.9" ++ ".tmp") = false :=
  ⟨by decide,
   (SetGolangInstallation_download_failed demoConsts notFoundEnv "9.9.9" emptyWorld
      (HttpResponse.mk 404 "Not Found" none) (by decide) rfl (by decide)).1,
   (SetGolangInstallation_download_failed demoConsts notFoundEnv "9.9.9" emptyWorld
      (HttpResponse.mk 404 "Not Found" none) (by decide) rfl (by decide)).2.2.1⟩

theorem osCreate_err {env : Env} {path : String} {w : World} {e : String}
    (h : (osCreate env path w).1 = some e) : osCreate env path w = (some e, w) := by
  unfold osCreate at h ⊢
  cases hc : env.create path with
  | some e2 =>
    simp only [hc, Option.some.injEq] at h ⊢
    rw [h]
  | none =>
    simp only [hc] at h ⊢
    by_cases hd : FS.get w.fs path = some Node.dir
    · simp only [hd, if_true, Option.some.injEq] at h ⊢
      rw [h]
    · simp [hd] at h

/-- The deferred `os.Remove(p)` leaves every other path as it is. -/
theorem osRemove_get (p q : String) (w : World) (h : p ≠ q) :
    FS.get (osRemove p w).fs q = FS.get w.fs q := by
  unfold osRemove
  split
  · simp [FS.get_remove, h]
  · split
    · rfl
    · simp [FS.get_remove, h]
  · rfl

/-- What `tar` extracts lies below the target: the target itself and the
archive next to it hold what they held. -/
theorem ShellTar_get (env : Env) (archive target q : String) (w : World)
    (h : ∀ rel : String, target ++ "/" ++ rel ≠ q) :
    FS.get (util.ShellTar env archive target w).2.fs q = FS.get w.fs q := by
  simp only [util.ShellTar, record]
  exact FS.get_foldl_write target q _ (fun e _ => h e.1) w.fs

theorem slash_append_ne_self (a rel : String) : a ++ "/" ++ rel ≠ a := by
  rw [String.append_assoc]
  apply append_ne_self
  intro h
  have := congrArg String.length h
  rw [String.length_append] at this
  have h1 : ("/" : String).length = 1 := by decide
  have h0 : ("" : String).length = 0 := by decide
  omega

theorem mkdir_exists_msg_ne (p : String) :
    ¬ "mkdir: cannot create directory " ++ p ++ ": File exists" = "" := by
  intro h
  have hl := congrArg String.length h
  simp only [String.length_append] at hl
  have h1 : (": File exists" : String).length = 13 := by decide
  have h0 : ("" : String).length = 0 := by decide
  omega

theorem ShellTar_fst (env : Env) (archive target : String) (w : World) :
    (util.ShellTar env archive target w).1 = (env.tar (FS.get w.fs archive)).1 := rfl

theorem ShellTar_get_target (env : Env) (archive target : String) (w : World) :
    FS.get (util.ShellTar env archive target w).2.fs target = FS.get w.fs target :=
  ShellTar_get env archive target target w (slash_append_ne_self target)

/-- The outcome of `SetGolangInstallation`, stage by stage.  Either every step
up to and including `mkdir` succeeded, and then the version directory exists
afterwards and the status tells whether `tar` succeeded; or one of them failed,
and then the status is a failure and the version path holds what it held. -/
theorem install_spec (k : Consts) (env : Env) (v : String) (w : World) :
    ((osCreate env (k.GOLANG_DIR ++ "/go" ++ v ++ ".tmp") w).1 = none ∧
      ∃ resp, env.httpGet (golang.archiveUrl v) = Except.ok resp ∧ resp.StatusCode = 200 ∧
        resp.CopyErr = none ∧ FS.pathExists w.fs (k.GOLANG_DIR ++ "/go" ++ v) = false ∧
        env.mkdir (k.GOLANG_DIR ++ "/go" ++ v) = "" ∧
        FS.get (golang.SetGolangInstallation k env v w).2.fs (k.GOLANG_DIR ++ "/go" ++ v) =
          some Node.dir ∧
        (((env.tar (some (Node.file resp.Body))).1 = "" ∧
            (golang.SetGolangInstallation k env v w).1 = { Status := k.STATUS_SUCCESS }) ∨
         ((env.tar (some (Node.file resp.Body))).1 ≠ "" ∧
            (golang.SetGolangInstallation k env v w).1.Status = k.STATUS_FAILURE))) ∨
    (¬ ((osCreate env (k.GOLANG_DIR ++ "/go" ++ v ++ ".tmp") w).1 = none ∧
        ∃ resp, env.httpGet (golang.archiveUrl v) = Except.ok resp ∧ resp.StatusCode = 200 ∧
          resp.CopyErr = none ∧ FS.pathExists w.fs (k.GOLANG_DIR ++ "/go" ++ v) = false ∧
          env.mkdir (k.GOLANG_DIR ++ "/go" ++ v) = "") ∧
      FS.get (golang.SetGolangInstallation k env v w).2.fs (k.GOLANG_DIR ++ "/go" ++ v) =
        FS.get w.fs (k.GOLANG_DIR ++ "/go" ++ v) ∧
      (golang.SetGolangInstallation k env v w).1.Status = k.STATUS_FAILURE) := by
  have hne : k.GOLANG_DIR ++ "/go" ++ v ++ ".tmp" ≠ k.GOLANG_DIR ++ "/go" ++ v :=
    append_ne_self _ ".tmp" (by decide)
  cases hc : (osCreate env (k.GOLANG_DIR ++ "/go" ++ v ++ ".tmp") w).1 with
  | some e =>
    right
    simp [golang.SetGolangInstallation, osCreate_err hc]
  | none =>
    cases hg : env.httpGet (golang.archiveUrl v) with
    | error e =>
      right
      simp [golang.SetGolangInstallation, osCreate_ok hc, golang.installFrom, httpGet, hg,
        record, osRemove_get _ _ _ hne, FS.get_write, hne]
    | ok resp =>
      by_cases hs : resp.StatusCode = 200
      · cases hcp : resp.CopyErr with
        | some e =>
          right
          simp [golang.SetGolangInstallation, osCreate_ok hc, golang.installFrom, httpGet, hg,
            record, osRemove_get _ _ _ hne, FS.get_write, hne, hs, ioCopy, hcp]
        | none =>
          have hget2 : FS.get (FS.write (FS.write w.fs (k.GOLANG_DIR ++ "/go" ++ v ++ ".tmp")
              (Node.file "")) (k.GOLANG_DIR ++ "/go" ++ v ++ ".tmp") (Node.file resp.Body))
              (k.GOLANG_DIR ++ "/go" ++ v) = FS.get w.fs (k.GOLANG_DIR ++ "/go" ++ v) := by
            simp [FS.get_write, hne]
          by_cases hex : FS.pathExists w.fs (k.GOLANG_DIR ++ "/go" ++ v) = true
          · right
            have hex2 : FS.pathExists (FS.write (FS.write w.fs (k.GOLANG_DIR ++ "/go" ++ v ++ ".tmp")
                (Node.file "")) (k.GOLANG_DIR ++ "/go" ++ v ++ ".tmp") (Node.file resp.Body))
                (k.GOLANG_DIR ++ "/go" ++ v) = true := by
              simpa [FS.pathExists, hget2] using hex
            simp [golang.SetGolangInstallation, osCreate_ok hc, golang.installFrom, httpGet, hg,
              record, osRemove_get _ _ _ hne, FS.get_write, hne, hs, ioCopy, hcp,
              util.ShellMkdir, hex, hex2, mkdir_exists_msg_ne]
          · have hex2 : FS.pathExists (FS.write (FS.write w.fs (k.GOLANG_DIR ++ "/go" ++ v ++ ".tmp")
                (Node.file "")) (k.GOLANG_DIR ++ "/go" ++ v ++ ".tmp") (Node.file resp.Body))
                (k.GOLANG_DIR ++ "/go" ++ v) = false := by
              simpa [FS.pathExists, hget2] using hex
            by_cases hm : env.mkdir (k.GOLANG_DIR ++ "/go" ++ v) = ""
            · left
              have hrun : golang.SetGolangInstallation k env v w =
                  (if (env.tar (some (Node.file resp.Body))).1 = "" then
                      { Status := k.STATUS_SUCCESS }
                    else { Status := k.STATUS_FAILURE,
                           Reason := (env.tar (some (Node.file resp.Body))).1 },
                   osRemove (k.GOLANG_DIR ++ "/go" ++ v ++ ".tmp")
                    (util.ShellTar env (k.GOLANG_DIR ++ "/go" ++ v ++ ".tmp")
                      (k.GOLANG_DIR ++ "/go" ++ v)
                      { fs := FS.write (FS.write (FS.write w.fs
                                (k.GOLANG_DIR ++ "/go" ++ v ++ ".tmp") (Node.file ""))
                                (k.GOLANG_DIR ++ "/go" ++ v ++ ".tmp") (Node.file resp.Body))
                                (k.GOLANG_DIR ++ "/go" ++ v) Node.dir,
                        users := w.users, store := w.store,
                        events := w.events ++ [Event.httpGet (golang.archiveUrl v),
                          Event.exec ["mkdir", k.GOLANG_DIR ++ "/go" ++ v]] }).2) := by
                by_cases ht : (env.tar (some (Node.file resp.Body))).1 = ""
                · simp [golang.SetGolangInstallation, osCreate_ok hc, golang.installFrom,
                    httpGet, hg, record, hs, ioCopy, hcp, util.ShellMkdir, hex2, hm, ShellTar_fst,
                    FS.get_write, hne, Ne.symm hne, ht]
                · simp [golang.SetGolangInstallation, osCreate_ok hc, golang.installFrom,
                    httpGet, hg, record, hs, ioCopy, hcp, util.ShellMkdir, hex2, hm, ShellTar_fst,
                    FS.get_write, hne, Ne.symm hne, ht]
              refine ⟨rfl, resp, rfl, hs, hcp, by simpa using hex, hm, ?_, ?_⟩
              · rw [hrun]
                simp only [osRemove_get _ _ _ hne, ShellTar_get_target, FS.get_write, if_true]
              · rw [hrun]
                by_cases ht : (env.tar (some (Node.file resp.Body))).1 = ""
                · left
                  simp [ht]
                · right
                  simp [ht]
            · right
              simp [golang.SetGolangInstallation, osCreate_ok hc, golang.installFrom, httpGet, hg,
                record, osRemove_get _ _ _ hne, FS.get_write, hne, hs, ioCopy, hcp,
                util.ShellMkdir, hex, hex2, hm]
      · right
        simp [golang.SetGolangInstallation, osCreate_ok hc, golang.installFrom, httpGet, hg,
          record, osRemove_get _ _ _ hne, FS.get_write, hne, hs]


/-- C6, as stated, fails: on the empty host the path `GOLANG_DIR/go1.20.4` does
not exist; download and `mkdir` succeed and `tar` reports an error, so
`SetGolangInstallation` returns `STATUS_FAILURE`, and the directory
`GOLANG_DIR/go1.20.4` exists afterwards all the same. -/
theorem SetGolangInstallation_failed_tar_leaves_dir :
    FS.pathExists emptyWorld.fs "/gohive/golang/go1.20.4" = false ∧
    (golang.SetGolangInstallation demoConsts tarFailsEnv "1.20.4" emptyWorld).1 =
      { Status := "status_failure", Reason := "tar: Unexpected EOF in archive\nexit status 2" } ∧
    FS.isDir (golang.SetGolangInstallation demoConsts tarFailsEnv "1.20.4" emptyWorld).2.fs
      "/gohive/golang/go1.20.4" = true := by
  decide

/-- C6, amended: when `GOLANG_DIR/go<v>` does not exist before the call, the
directory `GOLANG_DIR/go<v>` exists after `SetGolangInstallation(v)` returns if
and only if the temp file was created, the fetch answered 200, the body was
copied and `mkdir` succeeded, whether or not the extraction succeeded; and the
call returns `STATUS_SUCCESS` if and only if, in addition, `tar` reported no
error.  So a call that returns `STATUS_SUCCESS` leaves the directory in place,
and so does a call whose extraction failed. -/
theorem SetGolangInstallation_dir_iff (k : Consts) (env : Env) (v : String) (w : World)
    (hk : k.STATUS_SUCCESS ≠ k.STATUS_FAILURE)
    (hfree : FS.pathExists w.fs (k.GOLANG_DIR ++ "/go" ++ v) = false) :
    (FS.isDir (golang.SetGolangInstallation k env v w).2.fs (k.GOLANG_DIR ++ "/go" ++ v) = true ↔
      ((osCreate env (k.GOLANG_DIR ++ "/go" ++ v ++ ".tmp") w).1 = none ∧
        ∃ resp, env.httpGet (golang.archiveUrl v) = Except.ok resp ∧ resp.StatusCode = 200 ∧
          resp.CopyErr = none ∧ env.mkdir (k.GOLANG_DIR ++ "/go" ++ v) = "")) ∧
    ((golang.SetGolangInstallation k env v w).1.Status = k.STATUS_SUCCESS ↔
      ((osCreate env (k.GOLANG_DIR ++ "/go" ++ v ++ ".tmp") w).1 = none ∧
        ∃ resp, env.httpGet (golang.archiveUrl v) = Except.ok resp ∧ resp.StatusCode = 200 ∧
          resp.CopyErr = none ∧ env.mkdir (k.GOLANG_DIR ++ "/go" ++ v) = "" ∧
          (env.tar (some (Node.file resp.Body))).1 = "")) ∧
    ((golang.SetGolangInstallation k env v w).1.Status = k.STATUS_SUCCESS →
      FS.isDir (golang.SetGolangInstallation k env v w).2.fs (k.GOLANG_DIR ++ "/go" ++ v) = true) := by
  have hnone : FS.get w.fs (k.GOLANG_DIR ++ "/go" ++ v) = none := by
    simpa [FS.pathExists] using hfree
  rcases install_spec k env v w with
    ⟨hc, resp, hg, hs, hcp, _, hm, hget, htar⟩ | ⟨hnot, hget, hfail⟩
  · have hdir : FS.isDir (golang.SetGolangInstallation k env v w).2.fs
        (k.GOLANG_DIR ++ "/go" ++ v) = true := by
      simp [FS.isDir, hget]
    refine ⟨⟨fun _ => ⟨hc, resp, hg, hs, hcp, hm⟩, fun _ => hdir⟩, ?_, fun _ => hdir⟩
    rcases htar with ⟨ht, hst⟩ | ⟨ht, hst⟩
    · exact ⟨fun _ => ⟨hc, resp, hg, hs, hcp, hm, ht⟩, fun _ => by rw [hst]⟩
    · constructor
      · intro h
        rw [hst] at h
        exact absurd h.symm hk
      · rintro ⟨_, resp2, hg2, _, _, _, ht2⟩
        rw [hg] at hg2
        cases hg2
        exact absurd ht2 ht
  · have hmade : ¬ ((osCreate env (k.GOLANG_DIR ++ "/go" ++ v ++ ".tmp") w).1 = none ∧
        ∃ resp, env.httpGet (golang.archiveUrl v) = Except.ok resp ∧ resp.StatusCode = 200 ∧
          resp.CopyErr = none ∧ env.mkdir (k.GOLANG_DIR ++ "/go" ++ v) = "") := by
      rintro ⟨hc, resp, hg, hs, hcp, hm⟩
      exact hnot ⟨hc, resp, hg, hs, hcp, hfree, hm⟩
    have hnodir : ¬ FS.isDir (golang.SetGolangInstallation k env v w).2.fs
        (k.GOLANG_DIR ++ "/go" ++ v) = true := by
      simp [FS.isDir, hget, hnone]
    have hnos : ¬ (golang.SetGolangInstallation k env v w).1.Status = k.STATUS_SUCCESS := by
      rw [hfail]
      exact fun h => hk h.symm
    refine ⟨⟨fun h => absurd h hnodir, fun h => absurd h hmade⟩, ⟨fun h => absurd h hnos, ?_⟩,
      fun h => absurd h hnos⟩
    rintro ⟨hc, resp, hg, hs, hcp, hm, _⟩
    exact absurd ⟨hc, resp, hg, hs, hcp, hm⟩ hmade

/-- Witness of `SetGolangInstallation_dir_iff`: version `1.20.4` on the empty
host; with a failing `tar` the directory exists although the status is not
`STATUS_SUCCESS`, with a quiet environment the call succeeds. -/
theorem SetGolangInstallation_dir_iff_witness :
    FS.isDir (golang.SetGolangInstallation demoConsts tarFailsEnv "1.20.4" emptyWorld).2.fs
      (demoConsts.GOLANG_DIR ++ "/go" ++ "1.20.4") = true ∧
    (golang.SetGolangInstallation demoConsts quietEnv "1.20.4" emptyWorld).1.Status =
      demoConsts.STATUS_SUCCESS :=
  ⟨(SetGolangInstallation_dir_iff demoConsts tarFailsEnv "1.20.4" emptyWorld (by decide)
      (by decide)).1.mpr ⟨by decide, HttpResponse.mk 200 "truncated archive" none, rfl, rfl, rfl,
        rfl⟩,
   (SetGolangInstallation_dir_iff demoConsts quietEnv "1.20.4" emptyWorld (by decide)
      (by decide)).2.1.mpr ⟨by decide, HttpResponse.mk 200 "archive" none, rfl, rfl, rfl, rfl,
        rfl⟩⟩


/-! ### `GetGolangList` and `Repair` -/

theorem childName_go (dir v : String) (hv : '/' ∉ v.data) :
    FS.childName dir (dir ++ "/go" ++ v) = some ("go" ++ v) := by
  have hdata : (dir ++ "/go" ++ v).data = (dir.data ++ [ '/' ]) ++ ('g' :: 'o' :: v.data) := by
    simp [String.data_append]
  have hpre : (dir.data ++ [ '/' ]).isPrefixOf (dir ++ "/go" ++ v).data = true := by
    rw [hdata, List.isPrefixOf_iff_prefix]
    exact List.prefix_append _ _
  have hdrop : (dir ++ "/go" ++ v).data.drop (dir.data.length + 1) = 'g' :: 'o' :: v.data := by
    rw [hdata]
    have hl : (dir.data ++ [ '/' ]).length = dir.data.length + 1 := by simp
    rw [← hl, List.drop_left]
  unfold FS.childName
  rw [if_pos hpre]
  simp only [hdrop]
  have hno : '/' ∉ ('g' :: 'o' :: v.data) := by
    simp only [List.mem_cons, not_or]
    exact ⟨by decide, by decide, hv⟩
  rw [if_pos ⟨by simp, hno⟩]
  congr 1

/-- The function `GetGolangList` reads the directory and changes nothing. -/
theorem GetGolangList_snd (k : Consts) (env : Env) (w : World) :
    (golang.GetGolangList k env w).2 = w := by
  unfold golang.GetGolangList
  split <;> rfl

/-- With a readable pool directory, the list of `GetGolangList` depends on the
file system only. -/
theorem GetGolangList_ok (k : Consts) (env : Env) (w : World)
    (hr : env.readDir k.GOLANG_DIR = none) :
    golang.GetGolangList k env w =
      (Outcome.ret ((((w.fs.filterMap (fun e => (FS.childName k.GOLANG_DIR e.1).map
          (fun n => FileInfo.mk n (decide (e.2 = Node.dir))))).insertionSort nameLe).filter
          (fun file => file.IsDir && HasPrefix file.Name golang.GO_PREFIX)).map FileInfo.Name), w) := by
  simp [golang.GetGolangList, ReadDir, hr]

theorem GetGolangList_panics (k : Consts) (env : Env) (w : World) (e : String)
    (hr : env.readDir k.GOLANG_DIR = some e) :
    golang.GetGolangList k env w = (Outcome.panic e, w) := by
  simp [golang.GetGolangList, ReadDir, hr]

/-- A version directory that exists is listed by `GetGolangList`. -/
theorem GetGolangList_of_dir (k : Consts) (env : Env) (v : String) (w : World)
    (hr : env.readDir k.GOLANG_DIR = none)
    (hd : FS.get w.fs (k.GOLANG_DIR ++ "/go" ++ v) = some Node.dir)
    (hv : '/' ∉ v.data) :
    ∃ list, golang.GetGolangList k env w = (Outcome.ret list, w) ∧
      golang.GO_PREFIX ++ v ∈ list := by
  refine ⟨_, GetGolangList_ok k env w hr, ?_⟩
  rw [List.mem_map]
  refine ⟨FileInfo.mk ("go" ++ v) true, ?_, rfl⟩
  rw [List.mem_filter]
  constructor
  · rw [(List.perm_insertionSort nameLe _).mem_iff, List.mem_filterMap]
    refine ⟨(k.GOLANG_DIR ++ "/go" ++ v, Node.dir), FS.mem_of_get hd, ?_⟩
    simp [childName_go _ _ hv]
  · simp [HasPrefix, golang.GO_PREFIX, String.data_append]


theorem osRemove_store (p : String) (w : World) : (osRemove p w).store = w.store := by
  unfold osRemove
  split
  · rfl
  · split <;> rfl
  · rfl

theorem ShellTar_store (env : Env) (archive target : String) (w : World) :
    (util.ShellTar env archive target w).2.store = w.store := rfl

/-- The function `SetGolangInstallation` does not write the configuration store. -/
theorem SetGolangInstallation_store (k : Consts) (env : Env) (v : String) (w : World) :
    (golang.SetGolangInstallation k env v w).2.store = w.store := by
  cases hc : (osCreate env (k.GOLANG_DIR ++ "/go" ++ v ++ ".tmp") w).1 with
  | some e => simp [golang.SetGolangInstallation, osCreate_err hc]
  | none =>
    cases hg : env.httpGet (golang.archiveUrl v) with
    | error e =>
      simp [golang.SetGolangInstallation, osCreate_ok hc, golang.installFrom, httpGet, hg,
        record, osRemove_store]
    | ok resp =>
      by_cases hs : resp.StatusCode = 200
      · cases hcp : resp.CopyErr with
        | some e =>
          simp [golang.SetGolangInstallation, osCreate_ok hc, golang.installFrom, httpGet, hg,
            record, osRemove_store, hs, ioCopy, hcp]
        | none =>
          by_cases hex : FS.pathExists (FS.write (FS.write w.fs
              (k.GOLANG_DIR ++ "/go" ++ v ++ ".tmp") (Node.file ""))
              (k.GOLANG_DIR ++ "/go" ++ v ++ ".tmp") (Node.file resp.Body))
              (k.GOLANG_DIR ++ "/go" ++ v) = true
          · simp [golang.SetGolangInstallation, osCreate_ok hc, golang.installFrom, httpGet, hg,
              record, osRemove_store, hs, ioCopy, hcp, util.ShellMkdir, hex, mkdir_exists_msg_ne]
          · by_cases hm : env.mkdir (k.GOLANG_DIR ++ "/go" ++ v) = ""
            · simp [golang.SetGolangInstallation, osCreate_ok hc, golang.installFrom, httpGet,
                hg, record, osRemove_store, hs, ioCopy, hcp, util.ShellMkdir, hex, hm,
                apply_ite Prod.snd, apply_ite World.store, ShellTar_store]
            · simp [golang.SetGolangInstallation, osCreate_ok hc, golang.installFrom, httpGet, hg,
                record, osRemove_store, hs, ioCopy, hcp, util.ShellMkdir, hex, hm]
      · simp [golang.SetGolangInstallation, osCreate_ok hc, golang.installFrom, httpGet, hg,
          record, osRemove_store, hs]


/-- The function `Repair` does nothing when the version directory is listed. -/
theorem Repair_noop (k : Consts) (env : Env) (name : String) (w : World) (list : List String)
    (hl : (golang.GetGolangList k env w).1 = Outcome.ret list)
    (hmem : golang.GO_PREFIX ++ (config.AppConfigGet name "golang" "version" "" w).1 ∈ list) :
    golang.Repair k env name w = (Outcome.ret { Status := k.STATUS_SUCCESS }, w) := by
  have hfull : golang.GetGolangList k env w = (Outcome.ret list, w) :=
    Prod.ext hl (GetGolangList_snd k env w)
  simp only [config.AppConfigGet] at hmem
  simp [golang.Repair, config.AppConfigGet, hfull, util.Includes, hmem]

/-- The function `Repair` installs the version when its directory is not listed. -/
theorem Repair_install (k : Consts) (env : Env) (name : String) (w : World) (list : List String)
    (hl : (golang.GetGolangList k env w).1 = Outcome.ret list)
    (hmem : golang.GO_PREFIX ++ (config.AppConfigGet name "golang" "version" "" w).1 ∉ list) :
    golang.Repair k env name w =
      (if (golang.SetGolangInstallation k env
            (config.AppConfigGet name "golang" "version" "" w).1 w).1.Status ≠ k.STATUS_SUCCESS
        then Outcome.ret (golang.SetGolangInstallation k env
            (config.AppConfigGet name "golang" "version" "" w).1 w).1
        else Outcome.ret { Status := k.STATUS_SUCCESS },
       (golang.SetGolangInstallation k env
            (config.AppConfigGet name "golang" "version" "" w).1 w).2) := by
  have hfull : golang.GetGolangList k env w = (Outcome.ret list, w) :=
    Prod.ext hl (GetGolangList_snd k env w)
  simp only [config.AppConfigGet] at hmem
  simp only [golang.Repair, config.AppConfigGet, hfull, util.Includes, hmem, decide_False,
    Bool.not_false, if_true]
  split <;> rfl

theorem FS.remove_append_single (l : List (String × Node)) (p : String) (n : Node) :
    FS.remove (l ++ [(p, n)]) p = FS.remove l p := by
  simp [FS.remove, List.filter_append]

theorem FS.remove_remove (fs : List (String × Node)) (p : String) :
    FS.remove (FS.remove fs p) p = FS.remove fs p := by
  simp [FS.remove, List.filter_filter]

theorem FS.remove_write_self (fs : List (String × Node)) (p : String) (n : Node) :
    FS.remove (FS.write fs p n) p = FS.remove fs p := by
  rw [FS.write, FS.remove_append_single, FS.remove_remove]

theorem FS.mem_of_mem_remove {fs : List (String × Node)} {p : String} {e : String × Node}
    (h : e ∈ FS.remove fs p) : e ∈ fs :=
  (List.mem_filter.mp h).1

/-- The file system after an installation that did not get as far as a
successful `mkdir`: the one it started from, without the temp file when that
was created. -/
theorem install_not_made_fs (k : Consts) (env : Env) (v : String) (w : World)
    (hnot : ¬ ((osCreate env (k.GOLANG_DIR ++ "/go" ++ v ++ ".tmp") w).1 = none ∧
      ∃ resp, env.httpGet (golang.archiveUrl v) = Except.ok resp ∧ resp.StatusCode = 200 ∧
        resp.CopyErr = none ∧ FS.pathExists w.fs (k.GOLANG_DIR ++ "/go" ++ v) = false ∧
        env.mkdir (k.GOLANG_DIR ++ "/go" ++ v) = "")) :
    (golang.SetGolangInstallation k env v w).2.fs = w.fs ∨
    (golang.SetGolangInstallation k env v w).2.fs =
      FS.remove w.fs (k.GOLANG_DIR ++ "/go" ++ v ++ ".tmp") := by
  have hne : k.GOLANG_DIR ++ "/go" ++ v ++ ".tmp" ≠ k.GOLANG_DIR ++ "/go" ++ v :=
    append_ne_self _ ".tmp" (by decide)
  cases hc : (osCreate env (k.GOLANG_DIR ++ "/go" ++ v ++ ".tmp") w).1 with
  | some e =>
    left
    simp [golang.SetGolangInstallation, osCreate_err hc]
  | none =>
    right
    cases hg : env.httpGet (golang.archiveUrl v) with
    | error e =>
      simp [golang.SetGolangInstallation, osCreate_ok hc, golang.installFrom, httpGet, hg,
        record, osRemove, FS.get_write, FS.remove_write_self]
    | ok resp =>
      by_cases hs : resp.StatusCode = 200
      · cases hcp : resp.CopyErr with
        | some e =>
          simp [golang.SetGolangInstallation, osCreate_ok hc, golang.installFrom, httpGet, hg,
            record, osRemove, FS.get_write, FS.remove_write_self, hs, ioCopy, hcp]
        | none =>
          have hget2 : FS.get (FS.write (FS.write w.fs (k.GOLANG_DIR ++ "/go" ++ v ++ ".tmp")
              (Node.file "")) (k.GOLANG_DIR ++ "/go" ++ v ++ ".tmp") (Node.file resp.Body))
              (k.GOLANG_DIR ++ "/go" ++ v) = FS.get w.fs (k.GOLANG_DIR ++ "/go" ++ v) := by
            simp [FS.get_write, hne]
          by_cases hex : FS.pathExists w.fs (k.GOLANG_DIR ++ "/go" ++ v) = true
          · have hex2 : FS.pathExists (FS.write (FS.write w.fs
                (k.GOLANG_DIR ++ "/go" ++ v ++ ".tmp") (Node.file ""))
                (k.GOLANG_DIR ++ "/go" ++ v ++ ".tmp") (Node.file resp.Body))
                (k.GOLANG_DIR ++ "/go" ++ v) = true := by
              simpa [FS.pathExists, hget2] using hex
            simp [golang.SetGolangInstallation, osCreate_ok hc, golang.installFrom, httpGet, hg,
              record, osRemove, FS.get_write, FS.remove_write_self, hs, ioCopy, hcp,
              util.ShellMkdir, hex2, mkdir_exists_msg_ne]
          · have hex2 : FS.pathExists (FS.write (FS.write w.fs
                (k.GOLANG_DIR ++ "/go" ++ v ++ ".tmp") (Node.file ""))
                (k.GOLANG_DIR ++ "/go" ++ v ++ ".tmp") (Node.file resp.Body))
                (k.GOLANG_DIR ++ "/go" ++ v) = false := by
              simpa [FS.pathExists, hget2] using hex
            have hm : ¬ env.mkdir (k.GOLANG_DIR ++ "/go" ++ v) = "" := by
              intro hm
              exact hnot ⟨hc, resp, hg, hs, hcp, by simpa using hex, hm⟩
            simp [golang.SetGolangInstallation, osCreate_ok hc, golang.installFrom, httpGet, hg,
              record, osRemove, FS.get_write, FS.remove_write_self, hs, ioCopy, hcp,
              util.ShellMkdir, hex2, hm]
      · simp [golang.SetGolangInstallation, osCreate_ok hc, golang.installFrom, httpGet, hg,
          record, osRemove, FS.get_write, FS.remove_write_self, hs]

/-- A file system with fewer entries lists fewer version directories. -/
theorem GetGolangList_mono (k : Consts) (e1 e2 : Env) (w1 w2 : World) (l1 l2 : List String)
    (hsub : ∀ e ∈ w2.fs, e ∈ w1.fs)
    (h1 : (golang.GetGolangList k e1 w1).1 = Outcome.ret l1)
    (h2 : (golang.GetGolangList k e2 w2).1 = Outcome.ret l2) :
    ∀ x ∈ l2, x ∈ l1 := by
  cases hr1 : e1.readDir k.GOLANG_DIR with
  | some e => simp [GetGolangList_panics k e1 w1 e hr1] at h1
  | none =>
    cases hr2 : e2.readDir k.GOLANG_DIR with
    | some e => simp [GetGolangList_panics k e2 w2 e hr2] at h2
    | none =>
      rw [GetGolangList_ok k e1 w1 hr1] at h1
      rw [GetGolangList_ok k e2 w2 hr2] at h2
      simp only [Outcome.ret.injEq] at h1 h2
      subst h1
      subst h2
      intro x hx
      rw [List.mem_map] at hx ⊢
      obtain ⟨f, hf, hfx⟩ := hx
      refine ⟨f, ?_, hfx⟩
      rw [List.mem_filter] at hf ⊢
      refine ⟨?_, hf.2⟩
      have hf1 := hf.1
      rw [(List.perm_insertionSort nameLe _).mem_iff, List.mem_filterMap] at hf1 ⊢
      obtain ⟨e, he, hef⟩ := hf1
      exact ⟨e, hsub e he, hef⟩

/-- C7, as stated, fails: the desired version `1.20.4` is not installed and the
archive server answers 404.  The first `Repair` fails; the second one, run on
the state the first one left, invokes `SetGolangInstallation` again (another
HTTP GET is performed) and returns `STATUS_FAILURE`, not `STATUS_SUCCESS`. -/
theorem Repair_twice_downloads_twice :
    (golang.Repair demoConsts notFoundEnv "demo" wantWorld).1 =
      Outcome.ret { Status := "status_failure", Reason := "reason_download_failed" } ∧
    (golang.Repair demoConsts notFoundEnv "demo"
        (golang.Repair demoConsts notFoundEnv "demo" wantWorld).2).1 =
      Outcome.ret { Status := "status_failure", Reason := "reason_download_failed" } ∧
    (golang.Repair demoConsts notFoundEnv "demo"
        (golang.Repair demoConsts notFoundEnv "demo" wantWorld).2).2.events =
      (golang.Repair demoConsts notFoundEnv "demo" wantWorld).2.events ++
        [Event.httpGet "https://dl.google.com/go/go1.20.4.linux-amd64.tar.gz"] := by
  decide

/-- C7, amended, in four parts, for a second `Repair` whose pool directory is
readable.
(1) If the first `golang.Repair` returned `STATUS_SUCCESS` (and the desired
version holds no path separator), the second `Repair`, run on the state the
first one left, returns `STATUS_SUCCESS` and leaves that state exactly as it
is: no download, no `mkdir`, no `tar`.
(2) Whenever the directory `go<version>` is listed by `GetGolangList`, `Repair`
is a successful no-op.
(3) Whenever it is not listed, `Repair` invokes `SetGolangInstallation`: the
state it leaves is the one `SetGolangInstallation` leaves, and it returns that
call's status when it is not `STATUS_SUCCESS`.
(4) If the directory was not listed before the first call and the first call
did not get as far as a successful `mkdir` (temp file, fetch with status 200,
copy or `mkdir` failed), the second call invokes `SetGolangInstallation`
again. -/
theorem Repair_idempotent_after_success (k : Consts) (e1 e2 : Env) (name : String) (w : World)
    (hr : e2.readDir k.GOLANG_DIR = none) :
    (k.STATUS_SUCCESS ≠ k.STATUS_FAILURE →
      '/' ∉ ((config.AppConfigGet name "golang" "version" "" w).1).data →
      (golang.Repair k e1 name w).1.hasStatus k.STATUS_SUCCESS = true →
      golang.Repair k e2 name (golang.Repair k e1 name w).2 =
        (Outcome.ret { Status := k.STATUS_SUCCESS }, (golang.Repair k e1 name w).2)) ∧
    (∀ (env : Env) (w0 : World) (list : List String),
      (golang.GetGolangList k env w0).1 = Outcome.ret list →
      golang.GO_PREFIX ++ (config.AppConfigGet name "golang" "version" "" w0).1 ∈ list →
      golang.Repair k env name w0 = (Outcome.ret { Status := k.STATUS_SUCCESS }, w0)) ∧
    (∀ (env : Env) (w0 : World) (list : List String),
      (golang.GetGolangList k env w0).1 = Outcome.ret list →
      golang.GO_PREFIX ++ (config.AppConfigGet name "golang" "version" "" w0).1 ∉ list →
      golang.Repair k env name w0 =
        (if (golang.SetGolangInstallation k env
              (config.AppConfigGet name "golang" "version" "" w0).1 w0).1.Status ≠ k.STATUS_SUCCESS
          then Outcome.ret (golang.SetGolangInstallation k env
              (config.AppConfigGet name "golang" "version" "" w0).1 w0).1
          else Outcome.ret { Status := k.STATUS_SUCCESS },
         (golang.SetGolangInstallation k env
              (config.AppConfigGet name "golang" "version" "" w0).1 w0).2)) ∧
    (∀ list : List String,
      (golang.GetGolangList k e1 w).1 = Outcome.ret list →
      golang.GO_PREFIX ++ (config.AppConfigGet name "golang" "version" "" w).1 ∉ list →
      ¬ ((osCreate e1 (k.GOLANG_DIR ++ "/go" ++
            (config.AppConfigGet name "golang" "version" "" w).1 ++ ".tmp") w).1 = none ∧
          ∃ resp, e1.httpGet (golang.archiveUrl
              (config.AppConfigGet name "golang" "version" "" w).1) = Except.ok resp ∧
            resp.StatusCode = 200 ∧ resp.CopyErr = none ∧
            FS.pathExists w.fs (k.GOLANG_DIR ++ "/go" ++
              (config.AppConfigGet name "golang" "version" "" w).1) = false ∧
            e1.mkdir (k.GOLANG_DIR ++ "/go" ++
              (config.AppConfigGet name "golang" "version" "" w).1) = "") →
      golang.Repair k e2 name (golang.Repair k e1 name w).2 =
        (if (golang.SetGolangInstallation k e2
              (config.AppConfigGet name "golang" "version" "" w).1
              (golang.Repair k e1 name w).2).1.Status ≠ k.STATUS_SUCCESS
          then Outcome.ret (golang.SetGolangInstallation k e2
              (config.AppConfigGet name "golang" "version" "" w).1
              (golang.Repair k e1 name w).2).1
          else Outcome.ret { Status := k.STATUS_SUCCESS },
         (golang.SetGolangInstallation k e2
              (config.AppConfigGet name "golang" "version" "" w).1
              (golang.Repair k e1 name w).2).2)) := by
  refine ⟨?_, fun env w0 list hl hmem => Repair_noop k env name w0 list hl hmem,
    fun env w0 list hl hmem => Repair_install k env name w0 list hl hmem, ?_⟩
  · intro hk hv h1
    cases hr1 : e1.readDir k.GOLANG_DIR with
    | some e =>
      have hp : golang.Repair k e1 name w = (Outcome.panic e, w) := by
        simp [golang.Repair, config.AppConfigGet, GetGolangList_panics k e1 w e hr1]
      rw [hp] at h1
      simp [Outcome.hasStatus] at h1
    | none =>
      have hl1 := GetGolangList_ok k e1 w hr1
      have hl2 := GetGolangList_ok k e2 w hr
      by_cases hmem : golang.GO_PREFIX ++ (config.AppConfigGet name "golang" "version" "" w).1 ∈
          ((((w.fs.filterMap (fun e => (FS.childName k.GOLANG_DIR e.1).map
            (fun n => FileInfo.mk n (decide (e.2 = Node.dir))))).insertionSort nameLe).filter
            (fun file => file.IsDir && HasPrefix file.Name golang.GO_PREFIX)).map FileInfo.Name)
      · rw [Repair_noop k e1 name w _ (congrArg Prod.fst hl1) hmem]
        exact Repair_noop k e2 name w _ (congrArg Prod.fst hl2) hmem
      · have hrep := Repair_install k e1 name w _ (congrArg Prod.fst hl1) hmem
        rw [hrep] at h1 ⊢
        simp only []
        have hst : (golang.SetGolangInstallation k e1
            (config.AppConfigGet name "golang" "version" "" w).1 w).1.Status =
              k.STATUS_SUCCESS := by
          by_contra hne
          simp [hne, Outcome.hasStatus] at h1
        rcases install_spec k e1 (config.AppConfigGet name "golang" "version" "" w).1 w with
          ⟨_, _, _, _, _, _, _, hget, _⟩ | ⟨_, _, hfail⟩
        · obtain ⟨list, hl, hin⟩ := GetGolangList_of_dir k e2 _ _ hr hget hv
          apply Repair_noop k e2 name _ list (congrArg Prod.fst hl)
          have hstore : (config.AppConfigGet name "golang" "version" ""
              (golang.SetGolangInstallation k e1
                (config.AppConfigGet name "golang" "version" "" w).1 w).2).1 =
              (config.AppConfigGet name "golang" "version" "" w).1 := by
            simp only [config.AppConfigGet, SetGolangInstallation_store]
          rw [hstore]
          exact hin
        · rw [hfail] at hst
          exact absurd hst.symm hk
  · intro list hl hmem hnot
    have hrep := Repair_install k e1 name w list hl hmem
    have hw1 : (golang.Repair k e1 name w).2 = (golang.SetGolangInstallation k e1
        (config.AppConfigGet name "golang" "version" "" w).1 w).2 := by
      rw [hrep]
    have hstore : (config.AppConfigGet name "golang" "version" ""
        (golang.Repair k e1 name w).2).1 =
        (config.AppConfigGet name "golang" "version" "" w).1 := by
      rw [hw1]
      simp only [config.AppConfigGet, SetGolangInstallation_store]
    have hsub : ∀ e ∈ (golang.Repair k e1 name w).2.fs, e ∈ w.fs := by
      intro e he
      rw [hw1] at he
      rcases install_not_made_fs k e1 _ w hnot with h | h
      · rw [h] at he
        exact he
      · rw [h] at he
        exact FS.mem_of_mem_remove he
    have hl2 := congrArg Prod.fst (GetGolangList_ok k e2 (golang.Repair k e1 name w).2 hr)
    have h2 := Repair_install k e2 name (golang.Repair k e1 name w).2 _ hl2 (by
      rw [hstore]
      exact fun hx => hmem (GetGolangList_mono k e1 e2 w _ list _ hsub hl hl2 _ hx))
    rw [hstore] at h2
    exact h2

/-- Witness of `Repair_idempotent_after_success`.  On the host that wants
`1.20.4`: with a quiet environment the first `Repair` installs it and the second
one changes nothing; with a server answering 404 the first `Repair` fails and
the second one runs `SetGolangInstallation` again. -/
theorem Repair_idempotent_after_success_witness :
    (golang.Repair demoConsts quietEnv "demo" wantWorld).2.events =
      [Event.httpGet "https://dl.google.com/go/go1.20.4.linux-amd64.tar.gz",
       Event.exec ["mkdir", "/gohive/golang/go1.20.4"],
       Event.exec ["tar", "xf", "/gohive/golang/go1.20.4.tmp", "-C", "/gohive/golang/go1.20.4",
         "--strip-components", "1"]] ∧
    golang.Repair demoConsts quietEnv "demo" (golang.Repair demoConsts quietEnv "demo" wantWorld).2 =
      (Outcome.ret { Status := demoConsts.STATUS_SUCCESS },
        (golang.Repair demoConsts quietEnv "demo" wantWorld).2) ∧
    (golang.Repair demoConsts notFoundEnv "demo"
        (golang.Repair demoConsts notFoundEnv "demo" wantWorld).2).2 =
      (golang.SetGolangInstallation demoConsts notFoundEnv "1.20.4"
        (golang.Repair demoConsts notFoundEnv "demo" wantWorld).2).2 :=
  ⟨by decide,
   (Repair_idempotent_after_success demoConsts quietEnv quietEnv "demo" wantWorld rfl).1
      (by decide) (by decide) (by decide),
   congrArg Prod.snd
     ((Repair_idempotent_after_success demoConsts notFoundEnv notFoundEnv "demo" wantWorld
        rfl).2.2.2 [] (by decide) (by decide)
        (fun h => by
          obtain ⟨_, resp, hg, hs, _⟩ := h
          cases hg
          exact absurd hs (by decide)))⟩

/-! ### Panics -/

theorem golang_Status_returned (k : Consts) (env : Env) (name : String) (w : World) :
    (golang.Status k env name w).1.returned = true := by
  simp only [golang.Status, config.AppConfigGet, execRunuser]
  split
  · rfl
  · split
    · rfl
    · split <;> rfl

theorem golang_Repair_returned_iff (k : Consts) (env : Env) (name : String) (w : World) :
    (golang.Repair k env name w).1.returned = true ↔ env.readDir k.GOLANG_DIR = none := by
  cases hr : env.readDir k.GOLANG_DIR with
  | some e =>
    simp [golang.Repair, config.AppConfigGet, GetGolangList_panics k env w e hr, Outcome.returned]
  | none =>
    have hl := congrArg Prod.fst (GetGolangList_ok k env w hr)
    by_cases hmem : golang.GO_PREFIX ++ (config.AppConfigGet name "golang" "version" "" w).1 ∈
        ((((w.fs.filterMap (fun e => (FS.childName k.GOLANG_DIR e.1).map
          (fun n => FileInfo.mk n (decide (e.2 = Node.dir))))).insertionSort nameLe).filter
          (fun file => file.IsDir && HasPrefix file.Name golang.GO_PREFIX)).map FileInfo.Name)
    · rw [Repair_noop k env name w _ hl hmem]
      simp [Outcome.returned]
    · rw [Repair_install k env name w _ hl hmem]
      simp only [iff_true]
      split <;> rfl

/-- C9, as stated, fails: when `useradd` exits with an error `linux.Create`
panics instead of returning an error; when the `members` command fails
`linux.ListRemoved` panics; and when the pool directory cannot be listed
`golang.Repair` panics (inside `GetGolangList`). -/
theorem lifecycle_operations_panic :
    (linux.Create demoConsts failingEnv "demo" emptyWorld).1 =
      Outcome.panic "useradd: cannot lock /etc/passwd; try again later.\nexit status 1" ∧
    (linux.ListRemoved demoConsts failingEnv emptyWorld).1 =
      Outcome.panic "exec: \"members\": executable file not found in $PATH" ∧
    (golang.Repair demoConsts failingEnv "demo" emptyWorld).1 =
      Outcome.panic "open /gohive/golang: permission denied" := by
  decide

/-- C9, amended: every lifecycle operation of the `linux` and `golang` modules
returns a value rather than panicking, with three exceptions that panic by
explicit `panic` calls: `linux.Create` returns exactly when `useradd` exits
without error (and panics otherwise), `linux.ListRemoved` returns exactly when
the `members` command succeeds, and `golang.Repair` returns exactly when the
pool directory can be listed.  Failures of `userdel`, `runuser`, the HTTP
fetch, the temp file, `mkdir` and `tar` never make an operation panic. -/
theorem lifecycle_returns_unless_explicit_panic (k : Consts) (env : Env) (name : String)
    (w : World) :
    ((linux.Create k env name w).1.returned = true ↔
      (execUseradd k env linux.Group (linux.Prefix ++ name) w).1.err = none) ∧
    ((linux.ListRemoved k env w).1.returned = true ↔ env.members.err = none) ∧
    ((golang.Repair k env name w).1.returned = true ↔ env.readDir k.GOLANG_DIR = none) ∧
    (linux.Status k name w).1.returned = true ∧
    (linux.Repair name w).1.returned = true ∧
    (linux.Remove k env name w).1.returned = true ∧
    (golang.Create k name w).1.returned = true ∧
    (golang.Status k env name w).1.returned = true ∧
    (golang.Remove k name w).1.returned = true ∧
    (golang.ListRemoved w).1.returned = true := by
  refine ⟨?_, ?_, golang_Repair_returned_iff k env name w, rfl, rfl, ?_, rfl,
    golang_Status_returned k env name w, rfl, rfl⟩
  · rw [linux_Create_eq]
    cases (execUseradd k env linux.Group (linux.Prefix ++ name) w).1.err <;>
      simp [Outcome.returned]
  · simp only [linux.ListRemoved, execMembers]
    cases env.members.err <;> simp [Outcome.returned, removedLoop_eq]
  · rw [linux_Remove_eq]
    rfl

end GoHive
